import Mathlib

/-!
Shallow embedding of the device-identity binding subsystem of
rustdesk-server (`src/mac_control.rs`), together with proofs about its
cache/storage reconciliation behaviour.

Rust `Arc<RwLock<MacControl>>` handles are embedded as addresses (`Nat`)
into an explicit heap (`List MacControl`); the `HashMap<String, LockMacControl>`
is an association list whose insert replaces any previous entry for the key;
the persistent store (`database.rs`, outside the fragment) is a table of
rows plus a failure flag, with each operation recorded in an explicit trace
of `DbCall` events so that "which storage path was taken" is observable.
-/

namespace MacControlRs

/-- Network socket addresses (`std::net::SocketAddr`), embedded as strings;
only equality and the default value `"0.0.0.0:0"` matter to this module. -/
abbrev SocketAddr := String

/-- One device's registration state (`struct MacControl`, mac_control.rs
lines 30-34). -/
structure MacControl where
  socket_addr : SocketAddr
  mac_id : String
  allowed_id : String
deriving DecidableEq, Repr

/-- The `Default` impl for `MacControl` (mac_control.rs lines 36-44). -/
def MacControl.default : MacControl :=
  { socket_addr := "0.0.0.0:0", mac_id := "", allowed_id := "" }

/-- A stored row binding a mac id to its allowed id. -/
structure DbRow where
  mac_id : String
  allowed_id : String
deriving DecidableEq, Repr

/-- Modelled from the spec: the persistent store. The repository's
`database.rs` is not part of the fragment; §6 of the spec gives its contract
(`insert_binding`, `update_binding`, `find_by_mac_id`,
`find_by_mac_and_allowed_id`, each returning `Result<_, StorageError>`).
`rows` is the table of mac-id/allowed-id bindings; `fail = true` means the
storage layer raises a `StorageError` on any operation. -/
structure Database where
  rows : List DbRow
  fail : Bool
deriving DecidableEq, Repr

/-- Modelled from the spec: `find_by_mac_id(mac_id) → Result<Option<Row>,
StorageError>` (spec §6): the row keyed by `mac_id`, if any. -/
def Database.get_mac_id (db : Database) (mac_id : String) :
    Except Unit (Option DbRow) :=
  if db.fail then Except.error ()
  else Except.ok (db.rows.find? (fun r => r.mac_id == mac_id))

/-- Modelled from the spec: `find_by_mac_and_allowed_id(mac_id, allowed_id) →
Result<Option<Row>, StorageError>` (spec §6): a row only when it matches both
fields (spec §8: "returns a populated record only if storage currently has a
row matching both `m` and `a`"). -/
def Database.get_allowed_id_with_mac_id (db : Database)
    (mac_id allowed_id : String) : Except Unit (Option DbRow) :=
  if db.fail then Except.error ()
  else Except.ok
    (db.rows.find? (fun r => r.mac_id == mac_id && r.allowed_id == allowed_id))

/-- Modelled from the spec: `insert_binding(mac_id, allowed_id) → Result<row,
StorageError>` (spec §6); "Persistent-store rows are created on first write
for a previously-unknown mac id" (spec §3). The freshest row is consulted
first by the find operations. -/
def Database.insert_mac (db : Database) (mac_id allowed_id : String) :
    Except Unit Database :=
  if db.fail then Except.error ()
  else Except.ok { db with rows := ⟨mac_id, allowed_id⟩ :: db.rows }

/-- Modelled from the spec: `update_binding(mac_id, allowed_id) → Result<(),
StorageError>` (spec §6); rows are "updated in place" (spec §3). -/
def Database.update_mac (db : Database) (mac_id allowed_id : String) :
    Except Unit Database :=
  if db.fail then Except.error ()
  else Except.ok { db with
    rows := db.rows.map (fun r =>
      if r.mac_id == mac_id then { r with allowed_id := allowed_id } else r) }

/-- An address into the heap of shared records; the embedding of a
`LockMacControl = Arc<RwLock<MacControl>>` handle. Two equal addresses are
the same shared record; distinct addresses are independent records. -/
abbrev Handle := Nat

/-- One storage round trip, as recorded in a trace: which `database.rs`
method was invoked, with which arguments. -/
inductive DbCall where
  | getMacId (mac_id : String)
  | getAllowedIdWithMacId (mac_id allowed_id : String)
  | insertMac (mac_id allowed_id : String)
  | updateMac (mac_id allowed_id : String)
deriving DecidableEq, Repr

/-- HashMap::insert on the association-list embedding of the in-memory map:
the new pair replaces any previous entry for the key, so the map keeps at
most one entry per key. -/
def mapInsert (mp : List (String × Handle)) (k : String) (v : Handle) :
    List (String × Handle) :=
  (k, v) :: mp.filter (fun p => p.1 != k)

/-- The state of a `MacControlMap` (mac_control.rs lines 48-52): the heap of
shared records, the in-memory map from mac id to record handle, and the
persistent store handle. -/
structure MacControlMap where
  heap : List MacControl
  map : List (String × Handle)
  db : Database
deriving DecidableEq, Repr

/-- Result codes produced by `update_pk` (`register_pk_response::Result`;
only these two of the protocol's variants occur in this module). -/
inductive RegisterPkResult where
  | OK
  | SERVER_ERROR
deriving DecidableEq, Repr

/-- A fresh `MacControlMap` over a given database, as built by `new`
(mac_control.rs lines 55-76): the in-memory map starts empty
(`map: Default::default()`) and no shared records exist yet. -/
def MacControlMap.new (db : Database) : MacControlMap :=
  { heap := [], map := [], db := db }

/-- The record a handle points at (dereferencing the `Arc<RwLock<_>>`);
out-of-range handles never arise from the API and read as the default. -/
def MacControlMap.deref (s : MacControlMap) (h : Handle) : MacControl :=
  s.heap.getD h MacControl.default

/-- `update_pk` (mac_control.rs lines 79-113), the `register` write path.
Under the record's write lock it stores the new address and allowed id and
snapshots the record's `mac_id` (lines 87-94; `mac_id` itself is never
written). If the snapshot is empty it calls `db.insert_mac`, otherwise
`db.update_mac` (lines 95-111); a storage error yields `SERVER_ERROR` with
the record left mutated, success yields `OK`. -/
def MacControlMap.update_pk (s : MacControlMap) (mac_id allowed_id : String)
    (mac_control : Handle) (addr : SocketAddr) :
    RegisterPkResult × MacControlMap × List DbCall :=
  let w0 := s.heap.getD mac_control MacControl.default
  let w1 := { w0 with socket_addr := addr, allowed_id := allowed_id }
  let heap1 := s.heap.set mac_control w1
  let mac := w1.mac_id
  if mac.isEmpty then
    match s.db.insert_mac mac_id allowed_id with
    | Except.error _ =>
        (RegisterPkResult.SERVER_ERROR, { s with heap := heap1 },
         [DbCall.insertMac mac_id allowed_id])
    | Except.ok db1 =>
        (RegisterPkResult.OK, { s with heap := heap1, db := db1 },
         [DbCall.insertMac mac_id allowed_id])
  else
    match s.db.update_mac mac_id allowed_id with
    | Except.error _ =>
        (RegisterPkResult.SERVER_ERROR, { s with heap := heap1 },
         [DbCall.updateMac mac_id allowed_id])
    | Except.ok db1 =>
        (RegisterPkResult.OK, { s with heap := heap1, db := db1 },
         [DbCall.updateMac mac_id allowed_id])

/-- `get` (mac_control.rs lines 116-131). On a map hit the shared handle is
returned with no storage access. On a miss, only an `Ok(Some(v))` from
`db.get_mac_id` produces a record (errors and absent rows both fall through
to `None`). Note line 127 inserts `mac.clone()` — the record VALUE, already
moved into `mac_control` and not `Clone` (this does not compile as written;
`mac_control.clone()` was evidently intended). It is embedded as written,
charitably: the map receives a second, distinct handle holding an equal
record, while the first handle is the one returned. -/
def MacControlMap.get (s : MacControlMap) (mac_id : String) :
    Option Handle × MacControlMap × List DbCall :=
  match s.map.lookup mac_id with
  | some p => (some p, s, [])
  | none =>
    match s.db.get_mac_id mac_id with
    | Except.ok (some v) =>
        let mac : MacControl :=
          { MacControl.default with mac_id := v.mac_id, allowed_id := v.allowed_id }
        let mac_control := s.heap.length
        let inserted := s.heap.length + 1
        (some mac_control,
         { s with heap := s.heap ++ [mac, mac],
                  map := mapInsert s.map mac_id inserted },
         [DbCall.getMacId mac_id])
    | _ => (none, s, [DbCall.getMacId mac_id])

/-- `get_allowed_id_with_mac_id` (mac_control.rs lines 133-145): always a
storage query filtered on both fields, never a map consultation; a hit
populates the cache. Line 141 has the same `mac.clone()` value-insert slip
as `get` line 127, embedded the same way. -/
def MacControlMap.get_allowed_id_with_mac_id (s : MacControlMap)
    (mac_id allowed_id : String) :
    Option Handle × MacControlMap × List DbCall :=
  match s.db.get_allowed_id_with_mac_id mac_id allowed_id with
  | Except.ok (some v) =>
      let mac : MacControl :=
        { MacControl.default with mac_id := v.mac_id, allowed_id := v.allowed_id }
      let mac_control := s.heap.length
      let inserted := s.heap.length + 1
      (some mac_control,
       { s with heap := s.heap ++ [mac, mac],
                map := mapInsert s.map mac_id inserted },
       [DbCall.getAllowedIdWithMacId mac_id allowed_id])
  | _ => (none, s, [DbCall.getAllowedIdWithMacId mac_id allowed_id])

/-- The exclusive-lock section of `get_or` (mac_control.rs lines 152-158):
under the map's write lock, re-check for the key (the double check; another
task may have inserted while the lock was not held) and return the winner's
handle if so; otherwise create a fresh default sentinel record, insert it
(`tmp.clone()` here clones the `Arc`, so the inserted handle IS the returned
handle) and return it. -/
def MacControlMap.get_or_locked (s : MacControlMap) (mac_id : String) :
    Handle × MacControlMap :=
  match s.map.lookup mac_id with
  | some p => (p, s)
  | none =>
    let tmp := s.heap.length
    (tmp, { s with heap := s.heap ++ [MacControl.default],
                   map := mapInsert s.map mac_id tmp })

/-- `get_or` (mac_control.rs lines 148-159), the spec's `get_or_create`:
try `get`; on `None`, fall into the exclusive-lock double-check-then-insert
section. -/
def MacControlMap.get_or (s : MacControlMap) (mac_id : String) :
    Handle × MacControlMap × List DbCall :=
  match s.get mac_id with
  | (some p, s1, tr) => (p, s1, tr)
  | (none, s1, tr) =>
    let r := s1.get_or_locked mac_id
    (r.1, r.2, tr)

/-- `get_in_memory` (mac_control.rs lines 162-164): cache-only lookup,
never touches storage. -/
def MacControlMap.get_in_memory (s : MacControlMap) (mac_id : String) :
    Option Handle :=
  s.map.lookup mac_id

/-- `is_in_memory` (mac_control.rs lines 167-169): `contains_key` on the
in-memory map, never touches storage. -/
def MacControlMap.is_in_memory (s : MacControlMap) (mac_id : String) : Bool :=
  (s.map.lookup mac_id).isSome

/-- The cache-shape invariant of spec §3: the in-memory map holds at most
one entry per mac id (its keys are pairwise distinct). -/
def MacControlMap.uniqueKeys (s : MacControlMap) : Prop :=
  (s.map.map Prod.fst).Nodup

/-! ### Helper lemmas about the map and heap embeddings -/

theorem lookup_mapInsert_self (mp : List (String × Handle)) (k : String)
    (v : Handle) : (mapInsert mp k v).lookup k = some v := by
  simp [mapInsert, List.lookup]

theorem filter_mapInsert_self (mp : List (String × Handle)) (k : String)
    (v : Handle) : (mapInsert mp k v).filter (fun p => p.1 == k) = [(k, v)] := by
  have h : (mp.filter (fun p => p.1 != k)).filter (fun p => p.1 == k) = [] := by
    rw [List.filter_eq_nil_iff]
    intro p hp
    rcases List.mem_filter.mp hp with ⟨_, hcond⟩
    simp [bne] at hcond
    simp [hcond]
  simp [mapInsert, List.filter_cons, h]

theorem nodupKeys_mapInsert (mp : List (String × Handle)) (k : String)
    (v : Handle) (h : (mp.map Prod.fst).Nodup) :
    ((mapInsert mp k v).map Prod.fst).Nodup := by
  simp only [mapInsert, List.map_cons]
  refine List.nodup_cons.mpr ⟨?_, h.sublist ((List.filter_sublist mp).map Prod.fst)⟩
  intro hk
  rcases List.mem_map.mp hk with ⟨p, hp, hpk⟩
  rcases List.mem_filter.mp hp with ⟨_, hcond⟩
  rw [hpk] at hcond
  simp at hcond

theorem getD_append_self (l : List MacControl) (w : MacControl)
    (rest : List MacControl) :
    (l ++ w :: rest).getD l.length MacControl.default = w := by
  rw [List.getD_eq_getElem?_getD, List.getElem?_append_right (Nat.le_refl _)]
  simp

theorem getD_set_self (l : List MacControl) (i : Nat) (w : MacControl)
    (h : i < l.length) : (l.set i w).getD i MacControl.default = w := by
  rw [List.getD_eq_getElem?_getD, List.getElem?_set_self (by simpa using h)]
  rfl

theorem get_map_hit (s : MacControlMap) (mac_id : String) (p : Handle)
    (h : s.map.lookup mac_id = some p) : s.get mac_id = (some p, s, []) := by
  simp [MacControlMap.get, h]

theorem get_unknown (s : MacControlMap) (mac_id : String)
    (hm : s.map.lookup mac_id = none)
    (hd : s.db.get_mac_id mac_id = Except.ok none) :
    s.get mac_id = (none, s, [DbCall.getMacId mac_id]) := by
  simp [MacControlMap.get, hm, hd]

theorem get_or_hit (s : MacControlMap) (mac_id : String) (p : Handle)
    (h : s.map.lookup mac_id = some p) : s.get_or mac_id = (p, s, []) := by
  simp [MacControlMap.get_or, get_map_hit s mac_id p h]

theorem get_or_unknown (s : MacControlMap) (mac_id : String)
    (hm : s.map.lookup mac_id = none)
    (hd : s.db.get_mac_id mac_id = Except.ok none) :
    s.get_or mac_id =
      (s.heap.length,
       { s with heap := s.heap ++ [MacControl.default],
                map := mapInsert s.map mac_id s.heap.length },
       [DbCall.getMacId mac_id]) := by
  simp [MacControlMap.get_or, get_unknown s mac_id hm hd,
    MacControlMap.get_or_locked, hm]

theorem update_pk_map_eq (s : MacControlMap) (mac_id allowed_id : String)
    (h : Handle) (addr : SocketAddr) :
    (s.update_pk mac_id allowed_id h addr).2.1.map = s.map := by
  simp only [MacControlMap.update_pk]
  split
  · split <;> rfl
  · split <;> rfl

theorem update_pk_heap_eq (s : MacControlMap) (mac_id allowed_id : String)
    (h : Handle) (addr : SocketAddr) :
    (s.update_pk mac_id allowed_id h addr).2.1.heap =
      s.heap.set h
        { s.heap.getD h MacControl.default with
          socket_addr := addr, allowed_id := allowed_id } := by
  simp only [MacControlMap.update_pk]
  split
  · split <;> rfl
  · split <;> rfl

theorem update_pk_mac_id_eq (s : MacControlMap) (mac_id allowed_id : String)
    (h : Handle) (addr : SocketAddr) :
    ((s.update_pk mac_id allowed_id h addr).2.1.deref h).mac_id
      = (s.deref h).mac_id := by
  rw [MacControlMap.deref, MacControlMap.deref, update_pk_heap_eq]
  by_cases hlt : h < s.heap.length
  · rw [getD_set_self _ _ _ hlt]
  · rw [List.set_eq_of_length_le (Nat.le_of_not_lt hlt)]

theorem update_pk_insert_ok (s : MacControlMap) (mac_id allowed_id : String)
    (h : Handle) (addr : SocketAddr)
    (hsent : (s.deref h).mac_id = "")
    (hf : s.db.fail = false) :
    s.update_pk mac_id allowed_id h addr =
      (RegisterPkResult.OK,
       { s with
         heap := s.heap.set h
           { s.deref h with socket_addr := addr, allowed_id := allowed_id },
         db := { s.db with rows := ⟨mac_id, allowed_id⟩ :: s.db.rows } },
       [DbCall.insertMac mac_id allowed_id]) := by
  rw [MacControlMap.deref] at hsent
  have hw : (s.heap[h]?.getD MacControl.default).mac_id.isEmpty = true := by
    rw [← List.getD_eq_getElem?_getD, hsent]
    rfl
  simp [MacControlMap.update_pk, Database.insert_mac, hf, hw, MacControlMap.deref,
    List.getD_eq_getElem?_getD]

theorem update_pk_insert_route (s : MacControlMap) (mac_id allowed_id : String)
    (h : Handle) (addr : SocketAddr)
    (hsent : (s.deref h).mac_id = "")
    (hf : s.db.fail = false) :
    (s.update_pk mac_id allowed_id h addr).1 = RegisterPkResult.OK
    ∧ (s.update_pk mac_id allowed_id h addr).2.2 = [DbCall.insertMac mac_id allowed_id]
    ∧ (s.update_pk mac_id allowed_id h addr).2.1.db.rows
        = ⟨mac_id, allowed_id⟩ :: s.db.rows := by
  rw [update_pk_insert_ok s mac_id allowed_id h addr hsent hf]
  exact ⟨rfl, rfl, rfl⟩

theorem update_pk_db_fail_eq (s : MacControlMap) (mac_id allowed_id : String)
    (h : Handle) (addr : SocketAddr) :
    (s.update_pk mac_id allowed_id h addr).2.1.db.fail = s.db.fail := by
  by_cases hf : s.db.fail = true
  · simp [MacControlMap.update_pk, Database.insert_mac, Database.update_mac, hf]
    split <;> exact hf
  · simp only [Bool.not_eq_true] at hf
    simp [MacControlMap.update_pk, Database.insert_mac, Database.update_mac, hf]
    split <;> rfl

theorem update_pk_heap_length (s : MacControlMap) (mac_id allowed_id : String)
    (h : Handle) (addr : SocketAddr) :
    (s.update_pk mac_id allowed_id h addr).2.1.heap.length = s.heap.length := by
  rw [update_pk_heap_eq]
  exact List.length_set s.heap h _

theorem update_pk_deref_self (s : MacControlMap) (mac_id allowed_id : String)
    (h : Handle) (addr : SocketAddr) (hh : h < s.heap.length) :
    (s.update_pk mac_id allowed_id h addr).2.1.deref h =
      { s.deref h with socket_addr := addr, allowed_id := allowed_id } := by
  rw [MacControlMap.deref, update_pk_heap_eq, getD_set_self _ _ _ hh,
    MacControlMap.deref]

/-! ### Claim theorems -/

/-- C10: `register` (`update_pk`) never writes the record's `mac_id` field:
after any call the record behind the passed handle keeps the `mac_id` it had
before (only `socket_addr` and `allowed_id` are written, mac_control.rs
lines 88-93), so a record created as an empty sentinel keeps an empty
`mac_id` across any number of register calls. -/
theorem c10_register_preserves_mac_id (s : MacControlMap)
    (mac_id allowed_id : String) (h : Handle) (addr : SocketAddr) :
    ((s.update_pk mac_id allowed_id h addr).2.1.deref h).mac_id
      = (s.deref h).mac_id :=
  update_pk_mac_id_eq s mac_id allowed_id h addr

/-- C5: if the storage layer fails during `register` (`update_pk`), the call
returns `SERVER_ERROR` while the in-memory record already holds the newly
written `allowed_id` and observed address — the record mutation happens
before the storage call and is not rolled back on the failure path — and
the storage state and in-memory map are left unchanged. -/
theorem c5_storage_failure_no_rollback (s : MacControlMap)
    (mac_id allowed_id : String) (h : Handle) (addr : SocketAddr)
    (hfail : s.db.fail = true) (hh : h < s.heap.length) :
    (s.update_pk mac_id allowed_id h addr).1 = RegisterPkResult.SERVER_ERROR
    ∧ ((s.update_pk mac_id allowed_id h addr).2.1.deref h).allowed_id = allowed_id
    ∧ ((s.update_pk mac_id allowed_id h addr).2.1.deref h).socket_addr = addr
    ∧ (s.update_pk mac_id allowed_id h addr).2.1.db = s.db
    ∧ (s.update_pk mac_id allowed_id h addr).2.1.map = s.map := by
  have hderef : ((s.update_pk mac_id allowed_id h addr).2.1.deref h) =
      { s.heap.getD h MacControl.default with
        socket_addr := addr, allowed_id := allowed_id } := by
    rw [MacControlMap.deref, update_pk_heap_eq, getD_set_self _ _ _ hh]
  refine ⟨?_, by rw [hderef], by rw [hderef], ?_, update_pk_map_eq s mac_id allowed_id h addr⟩
  · simp only [MacControlMap.update_pk, Database.insert_mac, Database.update_mac, hfail]
    split <;> rfl
  · simp only [MacControlMap.update_pk, Database.insert_mac, Database.update_mac, hfail]
    split <;> rfl

/-- Witness for C5: a concrete failing-storage register call. -/
theorem c5_storage_failure_no_rollback_witness :
    (let s : MacControlMap :=
      { heap := [MacControl.default], map := [("m", 0)],
        db := { rows := [], fail := true } }
     (s.update_pk "m" "a" 0 "1.2.3.4:5").1 = RegisterPkResult.SERVER_ERROR
     ∧ ((s.update_pk "m" "a" 0 "1.2.3.4:5").2.1.deref 0).allowed_id = "a"
     ∧ ((s.update_pk "m" "a" 0 "1.2.3.4:5").2.1.deref 0).socket_addr = "1.2.3.4:5"
     ∧ (s.update_pk "m" "a" 0 "1.2.3.4:5").2.1.db = s.db
     ∧ (s.update_pk "m" "a" 0 "1.2.3.4:5").2.1.map = s.map) :=
  c5_storage_failure_no_rollback
    { heap := [MacControl.default], map := [("m", 0)],
      db := { rows := [], fail := true } }
    "m" "a" 0 "1.2.3.4:5" rfl (by decide)

/-- C6: a storage error raised during a read-path lookup is swallowed: `get`
(which only reaches storage on a map miss) returns `None` with the state
unchanged, and `get_allowed_id_with_mac_id` (which always queries storage)
returns `None` with the state unchanged — exactly the outcome of a lookup
that finds no row, with no failure propagated to the caller. -/
theorem c6_read_errors_swallowed (s : MacControlMap)
    (mac_id allowed_id : String) (hfail : s.db.fail = true) :
    (s.map.lookup mac_id = none →
      (s.get mac_id).1 = none ∧ (s.get mac_id).2.1 = s)
    ∧ (s.get_allowed_id_with_mac_id mac_id allowed_id).1 = none
    ∧ (s.get_allowed_id_with_mac_id mac_id allowed_id).2.1 = s := by
  refine ⟨fun hmiss => ?_, ?_, ?_⟩
  · constructor <;> simp [MacControlMap.get, hmiss, Database.get_mac_id, hfail]
  · simp [MacControlMap.get_allowed_id_with_mac_id,
      Database.get_allowed_id_with_mac_id, hfail]
  · simp [MacControlMap.get_allowed_id_with_mac_id,
      Database.get_allowed_id_with_mac_id, hfail]

/-- Witness for C6: a concrete failing-storage lookup pair. -/
theorem c6_read_errors_swallowed_witness :
    (let s : MacControlMap :=
      { heap := [], map := [],
        db := { rows := [⟨"m", "a"⟩], fail := true } }
     ((s.get "m").1 = none ∧ (s.get "m").2.1 = s)
     ∧ (s.get_allowed_id_with_mac_id "m" "a").1 = none
     ∧ (s.get_allowed_id_with_mac_id "m" "a").2.1 = s) := by
  have h := c6_read_errors_swallowed
    { heap := [], map := [], db := { rows := [⟨"m", "a"⟩], fail := true } }
    "m" "a" rfl
  exact ⟨h.1 rfl, h.2.1, h.2.2⟩

/-- C1, counterexample to the claim as stated: for the unknown mac id
"dev-1", a first register through the freshly created sentinel record routes
through the insert path and returns OK, but the SECOND register through the
same record with a different allowed id ALSO routes through the storage
insert path (its trace is an `insertMac` call, not an `updateMac` call),
because `update_pk` never writes the record's `mac_id`, so the snapshot is
still empty. -/
theorem c1_counterexample_second_register_inserts :
    (let s0 := MacControlMap.new { rows := [], fail := false }
     let g := s0.get_or "dev-1"
     let r1 := g.2.1.update_pk "dev-1" "peer-9" g.1 "9.9.9.9:9"
     let r2 := r1.2.1.update_pk "dev-1" "peer-42" g.1 "9.9.9.9:9"
     r1.1 = RegisterPkResult.OK
     ∧ r1.2.2 = [DbCall.insertMac "dev-1" "peer-9"]
     ∧ r2.1 = RegisterPkResult.OK
     ∧ r2.2.2 = [DbCall.insertMac "dev-1" "peer-42"]
     ∧ r2.2.2 ≠ [DbCall.updateMac "dev-1" "peer-42"]) := by
  decide

/-- C1 (amended): for every mac id unknown to both cache and storage, a
first register through the freshly created sentinel record routes through
the storage insert path and returns OK; a second register for the same mac
id through the same record with a different allowed id also routes through
the storage INSERT path (the record's `mac_id` snapshot is still empty,
since register never writes it) and returns OK, and a subsequent get of
that mac id reports the new allowed id. -/
theorem c1_sentinel_registers_route_insert (s s1 s2 s3 : MacControlMap)
    (mac_id a1 a2 : String) (addr1 addr2 : SocketAddr) (h : Handle)
    (r1 r2 : RegisterPkResult) (tg t1 t2 : List DbCall)
    (hm : s.map.lookup mac_id = none)
    (hrow : s.db.rows.find? (fun r => r.mac_id == mac_id) = none)
    (hf : s.db.fail = false)
    (e1 : s.get_or mac_id = (h, s1, tg))
    (e2 : s1.update_pk mac_id a1 h addr1 = (r1, s2, t1))
    (e3 : s2.update_pk mac_id a2 h addr2 = (r2, s3, t2)) :
    r1 = RegisterPkResult.OK ∧ t1 = [DbCall.insertMac mac_id a1]
    ∧ r2 = RegisterPkResult.OK ∧ t2 = [DbCall.insertMac mac_id a2]
    ∧ (s3.get mac_id).1 = some h
    ∧ ((s3.get mac_id).2.1.deref h).allowed_id = a2 := by
  have hd : s.db.get_mac_id mac_id = Except.ok none := by
    simp [Database.get_mac_id, hf, hrow]
  have eh := congrArg (fun p => p.1) e1
  have es1 := congrArg (fun p => p.2.1) e1
  dsimp only at eh es1
  subst eh
  subst es1
  have hd1 : (s.get_or mac_id).2.1.deref (s.get_or mac_id).1
      = MacControl.default := by
    rw [get_or_unknown s mac_id hm hd]
    exact getD_append_self s.heap MacControl.default []
  have hlk1 : (s.get_or mac_id).2.1.map.lookup mac_id
      = some (s.get_or mac_id).1 := by
    rw [get_or_unknown s mac_id hm hd]
    exact lookup_mapInsert_self s.map mac_id s.heap.length
  have hdb1 : (s.get_or mac_id).2.1.db = s.db := by
    rw [get_or_unknown s mac_id hm hd]
  have hlt1 : (s.get_or mac_id).1 < (s.get_or mac_id).2.1.heap.length := by
    rw [get_or_unknown s mac_id hm hd]
    simp
  have er1 := congrArg (fun p => p.1) e2
  have es2 := congrArg (fun p => p.2.1) e2
  have et1 := congrArg (fun p => p.2.2) e2
  dsimp only at er1 es2 et1
  subst er1
  subst es2
  subst et1
  have route1 := update_pk_insert_route (s.get_or mac_id).2.1 mac_id a1
    (s.get_or mac_id).1 addr1 (by rw [hd1]; rfl) (by rw [hdb1, hf])
  have hlk2 :
      ((s.get_or mac_id).2.1.update_pk mac_id a1 (s.get_or mac_id).1
        addr1).2.1.map.lookup mac_id = some (s.get_or mac_id).1 := by
    rw [update_pk_map_eq]
    exact hlk1
  have hmac2 :
      (((s.get_or mac_id).2.1.update_pk mac_id a1 (s.get_or mac_id).1
        addr1).2.1.deref (s.get_or mac_id).1).mac_id = "" := by
    rw [update_pk_mac_id_eq, hd1]
    rfl
  have hfail2 :
      ((s.get_or mac_id).2.1.update_pk mac_id a1 (s.get_or mac_id).1
        addr1).2.1.db.fail = false := by
    rw [update_pk_db_fail_eq, hdb1, hf]
  have hlt2 : (s.get_or mac_id).1 <
      ((s.get_or mac_id).2.1.update_pk mac_id a1 (s.get_or mac_id).1
        addr1).2.1.heap.length := by
    rw [update_pk_heap_length]
    exact hlt1
  have er2 := congrArg (fun p => p.1) e3
  have es3 := congrArg (fun p => p.2.1) e3
  have et2 := congrArg (fun p => p.2.2) e3
  dsimp only at er2 es3 et2
  subst er2
  subst es3
  subst et2
  have route2 := update_pk_insert_route _ mac_id a2 (s.get_or mac_id).1 addr2
    hmac2 hfail2
  have hlk3 := hlk2
  rw [← update_pk_map_eq _ mac_id a2 (s.get_or mac_id).1 addr2] at hlk3
  have hget3 := get_map_hit _ mac_id (s.get_or mac_id).1 hlk3
  refine ⟨route1.1, route1.2.1, route2.1, route2.2.1, by rw [hget3], ?_⟩
  rw [hget3]
  dsimp only
  rw [update_pk_deref_self _ mac_id a2 (s.get_or mac_id).1 addr2 hlt2]

/-- Witness for C1 (amended): the concrete dev-1/peer-9/peer-42 run. -/
theorem c1_sentinel_registers_route_insert_witness :
    (RegisterPkResult.OK = RegisterPkResult.OK
     ∧ [DbCall.insertMac "dev-1" "peer-9"] = [DbCall.insertMac "dev-1" "peer-9"]
     ∧ RegisterPkResult.OK = RegisterPkResult.OK
     ∧ [DbCall.insertMac "dev-1" "peer-42"] = [DbCall.insertMac "dev-1" "peer-42"]
     ∧ (({ heap := [{ socket_addr := "9.9.9.9:9", mac_id := "",
                      allowed_id := "peer-42" }],
           map := [("dev-1", 0)],
           db := { rows := [⟨"dev-1", "peer-42"⟩, ⟨"dev-1", "peer-9"⟩],
                   fail := false } } : MacControlMap).get "dev-1").1 = some 0
     ∧ ((({ heap := [{ socket_addr := "9.9.9.9:9", mac_id := "",
                       allowed_id := "peer-42" }],
            map := [("dev-1", 0)],
            db := { rows := [⟨"dev-1", "peer-42"⟩, ⟨"dev-1", "peer-9"⟩],
                    fail := false } } : MacControlMap).get
          "dev-1").2.1.deref 0).allowed_id = "peer-42") :=
  c1_sentinel_registers_route_insert
    (MacControlMap.new { rows := [], fail := false })
    { heap := [MacControl.default], map := [("dev-1", 0)],
      db := { rows := [], fail := false } }
    { heap := [{ socket_addr := "9.9.9.9:9", mac_id := "", allowed_id := "peer-9" }],
      map := [("dev-1", 0)],
      db := { rows := [⟨"dev-1", "peer-9"⟩], fail := false } }
    { heap := [{ socket_addr := "9.9.9.9:9", mac_id := "", allowed_id := "peer-42" }],
      map := [("dev-1", 0)],
      db := { rows := [⟨"dev-1", "peer-42"⟩, ⟨"dev-1", "peer-9"⟩], fail := false } }
    "dev-1" "peer-9" "peer-42" "9.9.9.9:9" "9.9.9.9:9" 0
    RegisterPkResult.OK RegisterPkResult.OK
    [DbCall.getMacId "dev-1"]
    [DbCall.insertMac "dev-1" "peer-9"] [DbCall.insertMac "dev-1" "peer-42"]
    (by decide) (by decide) (by decide) (by decide) (by decide) (by decide)

/-- C2, code bug: the claim that after any OK `register(m, a, record, addr)`
a subsequent `get(m)` reports `allowed_id = a` is broken by the `mac.clone()`
slip on line 127 of mac_control.rs: a record loaded from storage by `get` is
returned through one handle while the map receives a distinct copy, so the
register mutation through the returned handle is invisible to the next
`get`, which still reports the old allowed id. Concretely: storage knows
("m", "old"); `get "m"` returns a handle; `register "m" "a"` through that
handle returns OK; the following `get "m"` yields a record whose
`allowed_id` is "old", not "a". -/
theorem c2_code_bug_register_not_visible_through_get :
    (let s0 := MacControlMap.new { rows := [⟨"m", "old"⟩], fail := false }
     let g1 := s0.get "m"
     let reg := g1.2.1.update_pk "m" "a" (g1.1.getD 0) "1.2.3.4:5"
     let g2 := reg.2.1.get "m"
     reg.1 = RegisterPkResult.OK
     ∧ g2.1.isSome = true
     ∧ (g2.2.1.deref (g2.1.getD 0)).allowed_id = "old"
     ∧ (g2.2.1.deref (g2.1.getD 0)).allowed_id ≠ "a") := by
  decide

/-- C4, code bug: the claim that on a map miss with a storage row `get`
inserts the constructed record into the map and returns THAT SAME handle is
broken by the `mac.clone()` slip on line 127: the returned handle (address
0 here) differs from the instance stored in the map (address 1), which
holds an equal but independent copy of the record. -/
theorem c4_code_bug_get_returns_handle_not_stored :
    (let s0 := MacControlMap.new { rows := [⟨"m", "old"⟩], fail := false }
     let g := s0.get "m"
     g.1 = some 0
     ∧ g.2.1.map.lookup "m" = some 1
     ∧ (0 : Handle) ≠ 1
     ∧ g.2.1.deref 0 = g.2.1.deref 1) := by
  decide

theorem get_in_memory_of_isSome (s : MacControlMap) (mac_id : String)
    (hs : (s.get mac_id).1.isSome = true) :
    (s.get mac_id).2.1.is_in_memory mac_id = true := by
  rcases hl : s.map.lookup mac_id with _ | p
  · rcases hdb : s.db.get_mac_id mac_id with u | ov
    · simp [MacControlMap.get, hl, hdb] at hs
    · rcases ov with _ | v
      · simp [MacControlMap.get, hl, hdb] at hs
      · simp [MacControlMap.get, hl, hdb, MacControlMap.is_in_memory,
          lookup_mapInsert_self]
  · simp [MacControlMap.get, hl, MacControlMap.is_in_memory]

theorem get_or_in_memory (s : MacControlMap) (mac_id : String) :
    (s.get_or mac_id).2.1.is_in_memory mac_id = true := by
  rcases hg : s.get mac_id with ⟨o, s1, tr⟩
  rcases o with _ | p
  · simp only [MacControlMap.get_or, hg]
    rcases hl : s1.map.lookup mac_id with _ | q
    · simp [MacControlMap.get_or_locked, hl, MacControlMap.is_in_memory,
        lookup_mapInsert_self]
    · simp [MacControlMap.get_or_locked, hl, MacControlMap.is_in_memory]
  · have hmem := get_in_memory_of_isSome s mac_id (by rw [hg]; rfl)
    rw [hg] at hmem
    simpa [MacControlMap.get_or, hg] using hmem

theorem uniqueKeys_get (s : MacControlMap) (mac_id : String)
    (hu : s.uniqueKeys) : (s.get mac_id).2.1.uniqueKeys := by
  rcases hl : s.map.lookup mac_id with _ | p
  · rcases hdb : s.db.get_mac_id mac_id with u | ov
    · simpa [MacControlMap.get, hl, hdb] using hu
    · rcases ov with _ | v
      · simpa [MacControlMap.get, hl, hdb] using hu
      · simp only [MacControlMap.get, hl, hdb]
        exact nodupKeys_mapInsert s.map mac_id (s.heap.length + 1) hu
  · simpa [MacControlMap.get, hl] using hu

theorem uniqueKeys_get_allowed (s : MacControlMap)
    (mac_id allowed_id : String) (hu : s.uniqueKeys) :
    (s.get_allowed_id_with_mac_id mac_id allowed_id).2.1.uniqueKeys := by
  rcases hdb : s.db.get_allowed_id_with_mac_id mac_id allowed_id with u | ov
  · simpa [MacControlMap.get_allowed_id_with_mac_id, hdb] using hu
  · rcases ov with _ | v
    · simpa [MacControlMap.get_allowed_id_with_mac_id, hdb] using hu
    · simp only [MacControlMap.get_allowed_id_with_mac_id, hdb]
      exact nodupKeys_mapInsert s.map mac_id (s.heap.length + 1) hu

theorem uniqueKeys_get_or (s : MacControlMap) (mac_id : String)
    (hu : s.uniqueKeys) : (s.get_or mac_id).2.1.uniqueKeys := by
  rcases hg : s.get mac_id with ⟨o, s1, tr⟩
  have hu1 : s1.uniqueKeys := by
    have := uniqueKeys_get s mac_id hu
    rwa [hg] at this
  rcases o with _ | p
  · simp only [MacControlMap.get_or, hg]
    rcases hl : s1.map.lookup mac_id with _ | q
    · simp only [MacControlMap.get_or_locked, hl]
      exact nodupKeys_mapInsert s1.map mac_id s1.heap.length hu1
    · simpa [MacControlMap.get_or_locked, hl] using hu1
  · simpa [MacControlMap.get_or, hg] using hu1

theorem uniqueKeys_update_pk (s : MacControlMap) (mac_id allowed_id : String)
    (h : Handle) (addr : SocketAddr) (hu : s.uniqueKeys) :
    (s.update_pk mac_id allowed_id h addr).2.1.uniqueKeys := by
  have hm := update_pk_map_eq s mac_id allowed_id h addr
  unfold MacControlMap.uniqueKeys at hu ⊢
  rw [hm]
  exact hu

/-- C7, counterexample to the claim as stated: a `get` on a mac id known to
neither cache nor storage touches `m` (it issues the storage query) yet
leaves `is_in_memory m = false`, and a successful `register` (`update_pk`)
by itself also leaves `is_in_memory m = false` — only `get_or` and a `get`
that finds something populate the map. -/
theorem c7_counterexample_get_register_leave_map_empty :
    (let s0 := MacControlMap.new { rows := [], fail := false }
     (s0.get "m").2.2 = [DbCall.getMacId "m"]
     ∧ (s0.get "m").2.1.is_in_memory "m" = false)
    ∧ (let s1 : MacControlMap :=
        { heap := [MacControl.default], map := [],
          db := { rows := [], fail := false } }
       (s1.update_pk "m" "a" 0 "1.2.3.4:5").1 = RegisterPkResult.OK
       ∧ (s1.update_pk "m" "a" 0 "1.2.3.4:5").2.1.is_in_memory "m" = false) := by
  decide

/-- C7 (amended): `is_in_memory m` is false on a freshly constructed map and
true after any `get_or` (`get_or_create`) call for `m`; after a `get` it is
true whenever the `get` returned a record (a total miss leaves the map
unchanged); `register` (`update_pk`) itself never modifies the map, so it
alone never makes `is_in_memory m` true. -/
theorem c7_is_in_memory_characterised (db : Database) (s : MacControlMap)
    (mac_id allowed_id : String) (h : Handle) (addr : SocketAddr) :
    (MacControlMap.new db).is_in_memory mac_id = false
    ∧ (s.get_or mac_id).2.1.is_in_memory mac_id = true
    ∧ ((s.get mac_id).1.isSome = true →
        (s.get mac_id).2.1.is_in_memory mac_id = true)
    ∧ (s.update_pk mac_id allowed_id h addr).2.1.map = s.map :=
  ⟨rfl, get_or_in_memory s mac_id, get_in_memory_of_isSome s mac_id,
   update_pk_map_eq s mac_id allowed_id h addr⟩

/-- Witness for C7 (amended) at a state whose storage knows "m". -/
theorem c7_is_in_memory_characterised_witness :
    ((MacControlMap.new { rows := [], fail := false }).is_in_memory "m" = false
     ∧ (({ heap := [], map := [],
           db := { rows := [⟨"m", "x"⟩], fail := false } } :
          MacControlMap).get_or "m").2.1.is_in_memory "m" = true
     ∧ (({ heap := [], map := [],
           db := { rows := [⟨"m", "x"⟩], fail := false } } :
          MacControlMap).get "m").2.1.is_in_memory "m" = true
     ∧ (({ heap := [], map := [],
           db := { rows := [⟨"m", "x"⟩], fail := false } } :
          MacControlMap).update_pk "m" "a" 0 "1.2.3.4:5").2.1.map
         = ({ heap := [], map := [],
              db := { rows := [⟨"m", "x"⟩], fail := false } } :
            MacControlMap).map) := by
  have hc := c7_is_in_memory_characterised { rows := [], fail := false }
    { heap := [], map := [], db := { rows := [⟨"m", "x"⟩], fail := false } }
    "m" "a" 0 "1.2.3.4:5"
  exact ⟨hc.1, hc.2.1, hc.2.2.1 (by decide), hc.2.2.2⟩

/-- C3, counterexample to the claim as stated: `get_by_allowed_id`
(`get_allowed_id_with_mac_id`) issues a storage query even for a mac id
that is already present in the in-memory map, so it is false that once a
key is present no lookup for that key issues another storage query. -/
theorem c3_counterexample_cached_key_requeried :
    (let s : MacControlMap :=
      { heap := [MacControl.default], map := [("m", 0)],
        db := { rows := [], fail := false } }
     s.is_in_memory "m" = true
     ∧ (s.get_allowed_id_with_mac_id "m" "a").2.2
         = [DbCall.getAllowedIdWithMacId "m" "a"]) := by
  decide

/-- C3 (amended): every operation (`get`, `get_allowed_id_with_mac_id`,
`get_or`, `update_pk`) preserves the invariant that the cache holds at most
one record per mac id (pairwise-distinct keys), and once a key is present
in the map, `get` and `get_or` issue no storage query for it; by design
`get_allowed_id_with_mac_id` always issues a storage query, even for
present keys. -/
theorem c3_cache_invariant_preserved (s : MacControlMap)
    (mac_id allowed_id : String) (h : Handle) (addr : SocketAddr)
    (hu : s.uniqueKeys) :
    (s.get mac_id).2.1.uniqueKeys
    ∧ (s.get_allowed_id_with_mac_id mac_id allowed_id).2.1.uniqueKeys
    ∧ (s.get_or mac_id).2.1.uniqueKeys
    ∧ (s.update_pk mac_id allowed_id h addr).2.1.uniqueKeys
    ∧ (s.is_in_memory mac_id = true →
        (s.get mac_id).2.2 = [] ∧ (s.get_or mac_id).2.2 = []) := by
  refine ⟨uniqueKeys_get s mac_id hu,
    uniqueKeys_get_allowed s mac_id allowed_id hu,
    uniqueKeys_get_or s mac_id hu,
    uniqueKeys_update_pk s mac_id allowed_id h addr hu, fun hmem => ?_⟩
  rcases Option.isSome_iff_exists.mp hmem with ⟨p, hp⟩
  exact ⟨by rw [get_map_hit s mac_id p hp], by rw [get_or_hit s mac_id p hp]⟩

/-- Witness for C3 (amended) at a state caching "m". -/
theorem c3_cache_invariant_preserved_witness :
    ((({ heap := [MacControl.default], map := [("m", 0)],
         db := { rows := [], fail := false } } :
        MacControlMap).get "m").2.1.uniqueKeys
     ∧ (({ heap := [MacControl.default], map := [("m", 0)],
           db := { rows := [], fail := false } } :
          MacControlMap).get_allowed_id_with_mac_id "m" "a").2.1.uniqueKeys
     ∧ (({ heap := [MacControl.default], map := [("m", 0)],
           db := { rows := [], fail := false } } :
          MacControlMap).get_or "m").2.1.uniqueKeys
     ∧ (({ heap := [MacControl.default], map := [("m", 0)],
           db := { rows := [], fail := false } } :
          MacControlMap).update_pk "m" "a" 0 "1.2.3.4:5").2.1.uniqueKeys
     ∧ ((({ heap := [MacControl.default], map := [("m", 0)],
            db := { rows := [], fail := false } } :
           MacControlMap).get "m").2.2 = []
        ∧ (({ heap := [MacControl.default], map := [("m", 0)],
              db := { rows := [], fail := false } } :
             MacControlMap).get_or "m").2.2 = [])) := by
  have hc := c3_cache_invariant_preserved
    { heap := [MacControl.default], map := [("m", 0)],
      db := { rows := [], fail := false } }
    "m" "a" 0 "1.2.3.4:5" (by simp [MacControlMap.uniqueKeys])
  exact ⟨hc.1, hc.2.1, hc.2.2.1, hc.2.2.2.1, hc.2.2.2.2 (by decide)⟩

/-- C8: `get_allowed_id_with_mac_id` (the spec's `get_by_allowed_id`) never
consults the in-memory map first: every call issues exactly one storage
query filtered on both fields. It returns a record exactly when storage
currently has a row matching both `mac_id` and `allowed_id` — so when the
stored allowed id differs from `allowed_id` it returns nothing, regardless
of any cache entry for `mac_id` — and a returned record carries the row's
`mac_id`/`allowed_id` with the other fields defaulted. -/
theorem c8_get_by_allowed_id_storage_authoritative (s : MacControlMap)
    (mac_id allowed_id : String) :
    (s.get_allowed_id_with_mac_id mac_id allowed_id).2.2
      = [DbCall.getAllowedIdWithMacId mac_id allowed_id]
    ∧ ((s.get_allowed_id_with_mac_id mac_id allowed_id).1.isSome = true ↔
        (s.db.fail = false
         ∧ (s.db.rows.find? (fun r =>
              r.mac_id == mac_id && r.allowed_id == allowed_id)).isSome = true))
    ∧ (∀ v, s.db.get_allowed_id_with_mac_id mac_id allowed_id
          = Except.ok (some v) →
        (s.get_allowed_id_with_mac_id mac_id allowed_id).1 = some s.heap.length
        ∧ (s.get_allowed_id_with_mac_id mac_id allowed_id).2.1.deref s.heap.length
            = { MacControl.default with
                mac_id := v.mac_id, allowed_id := v.allowed_id }) := by
  by_cases hf : s.db.fail = true
  · have hdb : s.db.get_allowed_id_with_mac_id mac_id allowed_id
        = Except.error () := by
      simp [Database.get_allowed_id_with_mac_id, hf]
    refine ⟨?_, ?_, ?_⟩
    · simp [MacControlMap.get_allowed_id_with_mac_id, hdb]
    · simp [MacControlMap.get_allowed_id_with_mac_id, hdb, hf]
    · intro v hv
      rw [hdb] at hv
      exact Except.noConfusion hv
  · simp only [Bool.not_eq_true] at hf
    rcases hfind : s.db.rows.find? (fun r =>
        r.mac_id == mac_id && r.allowed_id == allowed_id) with _ | v
    · have hdb : s.db.get_allowed_id_with_mac_id mac_id allowed_id
          = Except.ok none := by
        simp [Database.get_allowed_id_with_mac_id, hf, hfind]
      refine ⟨?_, ?_, ?_⟩
      · simp [MacControlMap.get_allowed_id_with_mac_id, hdb]
      · simp [MacControlMap.get_allowed_id_with_mac_id, hdb, hf, hfind]
      · intro v hv
        rw [hdb] at hv
        simp at hv
    · have hdb : s.db.get_allowed_id_with_mac_id mac_id allowed_id
          = Except.ok (some v) := by
        simp [Database.get_allowed_id_with_mac_id, hf, hfind]
      refine ⟨?_, ?_, ?_⟩
      · simp [MacControlMap.get_allowed_id_with_mac_id, hdb]
      · simp [MacControlMap.get_allowed_id_with_mac_id, hdb, hf, hfind]
      · intro v2 hv2
        rw [hdb] at hv2
        injection hv2 with hv2
        injection hv2 with hv2
        subst hv2
        constructor
        · simp [MacControlMap.get_allowed_id_with_mac_id, hdb]
        · simp only [MacControlMap.get_allowed_id_with_mac_id, hdb]
          exact getD_append_self s.heap _ _

/-- Witness for C8: a state caching ("m" ↦ handle 0 with allowed id "b")
while storage knows ("m", "a"): the query for ("m", "a") hits and carries
the stored pair. -/
theorem c8_get_by_allowed_id_storage_authoritative_witness :
    (let s : MacControlMap :=
      { heap := [{ socket_addr := "0.0.0.0:0", mac_id := "m", allowed_id := "b" }],
        map := [("m", 0)], db := { rows := [⟨"m", "a"⟩], fail := false } }
     (s.get_allowed_id_with_mac_id "m" "a").2.2
       = [DbCall.getAllowedIdWithMacId "m" "a"]
     ∧ (s.get_allowed_id_with_mac_id "m" "a").1 = some s.heap.length
     ∧ (s.get_allowed_id_with_mac_id "m" "a").2.1.deref s.heap.length
         = { MacControl.default with mac_id := "m", allowed_id := "a" }
     ∧ (s.get_allowed_id_with_mac_id "m" "zzz").1.isSome = false) := by
  have hc := c8_get_by_allowed_id_storage_authoritative
    { heap := [{ socket_addr := "0.0.0.0:0", mac_id := "m", allowed_id := "b" }],
      map := [("m", 0)], db := { rows := [⟨"m", "a"⟩], fail := false } }
    "m" "a"
  have hhit := hc.2.2 ⟨"m", "a"⟩ rfl
  exact ⟨hc.1, hhit.1, hhit.2, by decide⟩

/-- C9: `get_or` (the spec's `get_or_create`) never fails; when the key is
already in the map it returns the existing record with the state unchanged
and no storage call — in particular the exclusive-lock double-check section
returns a concurrent winner's record without inserting another — and on a
mac id unknown to both cache and storage it creates a fresh empty-sentinel
record, inserts it, and returns that same inserted handle, after which the
map holds exactly one entry for the key and any further `get_or` returns
the same shared handle with the state unchanged. -/
theorem c9_get_or_create_single_instance (s : MacControlMap) (mac_id : String)
    (h0 : Handle) :
    (s.map.lookup mac_id = some h0 → s.get_or mac_id = (h0, s, []))
    ∧ (s.map.lookup mac_id = some h0 → s.get_or_locked mac_id = (h0, s))
    ∧ (s.map.lookup mac_id = none →
       s.db.get_mac_id mac_id = Except.ok none →
        (s.get_or mac_id).1 = s.heap.length
        ∧ (s.get_or mac_id).2.1.deref (s.get_or mac_id).1 = MacControl.default
        ∧ (s.get_or mac_id).2.1.map.lookup mac_id = some (s.get_or mac_id).1
        ∧ ((s.get_or mac_id).2.1.map.filter (fun p => p.1 == mac_id)).length = 1
        ∧ (s.get_or mac_id).2.1.get_or mac_id
            = ((s.get_or mac_id).1, (s.get_or mac_id).2.1, [])) := by
  refine ⟨fun hp => get_or_hit s mac_id h0 hp,
    fun hp => by simp [MacControlMap.get_or_locked, hp], fun hm hd => ?_⟩
  have hu := get_or_unknown s mac_id hm hd
  refine ⟨by rw [hu], ?_, ?_, ?_, ?_⟩
  · rw [hu]
    exact getD_append_self s.heap MacControl.default []
  · rw [hu]
    exact lookup_mapInsert_self s.map mac_id s.heap.length
  · rw [hu]
    dsimp only
    rw [filter_mapInsert_self]
    rfl
  · rw [hu]
    exact get_or_hit _ mac_id s.heap.length
      (lookup_mapInsert_self s.map mac_id s.heap.length)

/-- Witness for C9: the double-check/present case at a map caching "m", and
the creation case on a fresh map. -/
theorem c9_get_or_create_single_instance_witness :
    (({ heap := [MacControl.default], map := [("m", 0)],
        db := { rows := [], fail := false } } : MacControlMap).get_or "m"
       = (0, { heap := [MacControl.default], map := [("m", 0)],
               db := { rows := [], fail := false } }, [])
     ∧ ({ heap := [MacControl.default], map := [("m", 0)],
          db := { rows := [], fail := false } } : MacControlMap).get_or_locked "m"
       = (0, { heap := [MacControl.default], map := [("m", 0)],
               db := { rows := [], fail := false } })
     ∧ (let t := MacControlMap.new { rows := [], fail := false }
        (t.get_or "m").1 = t.heap.length
        ∧ (t.get_or "m").2.1.deref (t.get_or "m").1 = MacControl.default
        ∧ (t.get_or "m").2.1.map.lookup "m" = some (t.get_or "m").1
        ∧ ((t.get_or "m").2.1.map.filter (fun p => p.1 == "m")).length = 1
        ∧ (t.get_or "m").2.1.get_or "m"
            = ((t.get_or "m").1, (t.get_or "m").2.1, []))) := by
  have h1 := c9_get_or_create_single_instance
    { heap := [MacControl.default], map := [("m", 0)],
      db := { rows := [], fail := false } } "m" 0
  have h2 := c9_get_or_create_single_instance
    (MacControlMap.new { rows := [], fail := false }) "m" 0
  exact ⟨h1.1 rfl, h1.2.1 rfl, h2.2.2 rfl rfl⟩

end MacControlRs
